import Mathlib

/-!
Shallow embedding of the pod eventer
(`internal/pkg/composable/providers/kubernetes/pod.go`) and the hints
transport command (`internal/pkg/fleetapi/hints_cmd.go`) of the
elastic-agent fork, together with proofs about the emitted registry and
remote-dispatch behaviour.

External collaborators (the `mapstr`/`safemapstr` libraries, the
kubernetes watch primitive, the metadata generator, the HTTP sender and
the JSON codec) are modelled at the interface level the code uses:
string-keyed trees with Go-map put/delete/lookup semantics, and explicit
data describing what each external call returns.  Annotation keys are
treated as atomic strings (the splitting
of dotted keys by the external safemapstr library is outside the repository and not modelled).
-/

/-- A value stored in a `mapstr.M` tree: either a string leaf or a nested
string-keyed map, represented as an association list. -/
inductive Value where
  | str (s : String)
  | vmap (m : List (String × Value))
deriving Repr

/-- A `mapstr.M` / `map[string]interface{}`: an association list from keys
to values with Go-map update semantics (`mput` below). -/
abbrev Mapping := List (String × Value)

/-- Go map write `m[k] = v`: replace the binding in place if the key is
present, otherwise append it. -/
def mput : Mapping → String → Value → Mapping
  | [], k, v => [(k, v)]
  | (k1, v1) :: rest, k, v =>
    if k1 = k then (k, v) :: rest else (k1, v1) :: mput rest k v

/-- Go map read `m[k]`. -/
def mlookup : Mapping → String → Option Value
  | [], _ => none
  | (k1, v1) :: rest, k => if k1 = k then some v1 else mlookup rest k

/-- Model of `mapstr.M.Delete(k)` restricted to a top-level key. -/
def mdel (m : Mapping) (k : String) : Mapping :=
  m.filter (fun p => p.1 ≠ k)

/-- One port entry of a container spec (`v1.ContainerPort`). -/
structure Port where
  containerPort : Int
  name : String
deriving Repr, DecidableEq

/-- The container spec fields the eventer reads (`v1.Container`). -/
structure ContainerSpec where
  name : String
  image : String
  ports : List Port
deriving Repr, DecidableEq

/-- One container as enumerated by the external
`kubernetes.GetContainersInPod` helper: the spec entry paired with the
runtime identifier and runtime name taken from the container status
(empty when the container is not running yet). -/
structure Container where
  spec : ContainerSpec
  id : String
  runtime : String
deriving Repr, DecidableEq

/-- The pod snapshot fields the eventer reads (`kubernetes.Pod`):
UID, name, the annotation map, and the regular and init container lists
(each entry carrying its status-derived runtime fields). -/
structure Pod where
  uid : String
  name : String
  annotations : List (String × String)
  containers : List Container
  initContainers : List Container
deriving Repr, DecidableEq

/-- External `kubernetes.GetContainersInPod`: enumerates the regular
containers of the pod followed by its init containers. -/
def getContainersInPod (pod : Pod) : List Container :=
  pod.containers ++ pod.initContainers

/-- The metadata generator handle (`metadata.MetaGen`), an external
collaborator: `genPod` is `Generate(pod)` and `genContainer` is
`Generate(pod, metadata.WithFields("container.name", name))`.  The result
maps each top-level field (such as `kubernetes` or `orchestrator`) to its
field tree. -/
structure MetaGen where
  genPod : Pod → List (String × Mapping)
  genContainer : Pod → String → List (String × Mapping)

/-- One processor directive handed to the registry: the code always builds
an `add_fields` map holding a `fields` tree and a `target` name, modelled
by those two payload fields. -/
structure Processor where
  target : String
  fields : Mapping
deriving Repr

/-- One observable action of the eventer: a registry `AddOrUpdate`, a
registry `Remove`, or a remote dispatch through `postMappingstoFleet`
(recording the mapping and the event-type tag passed). -/
inductive Event where
  | addOrUpdate (id : String) (priority : Nat) (mapping : Mapping) (processors : List Processor)
  | remove (id : String)
  | dispatch (mapping : Mapping) (ty : String)
deriving Repr

/-- Modelled from the spec: `PodPriority`, defined in the provider package
outside `src/`; the spec only requires that container priority outranks
pod priority. -/
def PodPriority : Nat := 0

/-- Modelled from the spec: `ContainerPriority`, defined in the provider
package outside `src/`; it outranks `PodPriority`. -/
def ContainerPriority : Nat := 1

/-- The hint-gate sentinel annotation key used by `checkForHints`. -/
def hintsSentinelKey : String := "elastic-co-hints/package"

/-- Model of `checkForHints(annotations)`: true when the annotation map has the
sentinel key (`annotations.HasKey("elastic-co-hints/package")`). -/
def checkForHints (annotations : Mapping) : Bool :=
  (mlookup annotations hintsSentinelKey).isSome

/-- The annotation map built in `generatePodData` / `generateContainerData`
by folding `safemapstr.Put` over the annotations of the pod. -/
def podAnnotationsMap (pod : Pod) : Mapping :=
  pod.annotations.foldl (fun m kv => mput m kv.1 (.str kv.2)) []

/-- The annotation map used in `generateContainerData`: the pod annotation
map with the `kubectl` key deleted. -/
def sanitizedAnnotations (pod : Pod) : Mapping :=
  mdel (podAnnotationsMap pod) "kubectl"

/-- The `kubernetes.container` sub-map built for one container: id, name,
image and runtime, then for each declared port a `Put` of `port` and
`port_name` (each overwriting the previous iteration, so the last declared
port wins). -/
def containerMetaFor (c : Container) : Mapping :=
  c.spec.ports.foldl
    (fun m p => mput (mput m "port" (.str (toString p.containerPort))) "port_name" (.str p.name))
    [("id", .str c.id), ("name", .str c.spec.name),
     ("image", .str c.spec.image), ("runtime", .str c.runtime)]

/-- Model of `meta.GetValue(field)` on the generated tree: first binding
for the key, if any (generated trees never repeat a key). -/
def fieldLookup : List (String × Mapping) → String → Option Mapping
  | [], _ => none
  | (k1, v1) :: rest, k => if k1 = k then some v1 else fieldLookup rest k

/-- Model of `meta.GetValue("kubernetes")` plus the `mapstr.M` assertion
for one container of the pod. -/
def kubernetesTreeOf (mg : MetaGen) (pod : Pod) (c : Container) : Option Mapping :=
  fieldLookup (mg.genContainer pod c.spec.name) "kubernetes"

/-- Mapping published for one container, given the cloned `kubernetes.*`
tree `km`: add `namespace_annotations` when non-empty, add the sanitized
annotations, and finally store the `container` sub-map (the writes happen
in this order in the loop body of `generateContainerData`). -/
def containerK8sMapping (nsAnn : Mapping) (pod : Pod) (c : Container) (km : Mapping) : Mapping :=
  let k8s := if nsAnn.isEmpty then km else mput km "namespace_annotations" (.vmap nsAnn)
  let k8s := mput k8s "annotations" (.vmap (sanitizedAnnotations pod))
  mput k8s "container" (.vmap (containerMetaFor c))

/-- Processor list built for one container: the ECS `container` target
first, then one `add_fields` processor per top-level generated field. -/
def containerProcessors (mg : MetaGen) (pod : Pod) (c : Container) : List Processor :=
  { target := "container"
    fields := [("id", .str c.id), ("runtime", .str c.runtime),
               ("image", .vmap [("name", .str c.spec.image)])] } ::
    (mg.genContainer pod c.spec.name).map (fun fm => { target := fm.1, fields := fm.2 : Processor })

/-- Body of the `generateContainerData` loop for one container `c`:
skip when the runtime id is empty, skip when the generated metadata lacks
the `kubernetes` key, otherwise emit either a remote dispatch (when the
sanitized annotations carry the hint sentinel) or a registry
`AddOrUpdate` under the identity `pod.uid ++ "." ++ c.spec.name`. -/
def containerEvents (mg : MetaGen) (nsAnn : Mapping) (pod : Pod) (c : Container) : List Event :=
  if c.id = "" then []
  else
    match kubernetesTreeOf mg pod c with
    | none => []
    | some km =>
      if checkForHints (sanitizedAnnotations pod) then
        [.dispatch (containerK8sMapping nsAnn pod c km) "Start"]
      else
        [.addOrUpdate (pod.uid ++ "." ++ c.spec.name) ContainerPriority
          (containerK8sMapping nsAnn pod c km) (containerProcessors mg pod c)]

/-- Model of `generateContainerData`: iterate `containerEvents` over every
container that `kubernetes.GetContainersInPod` returns. -/
def generateContainerData (mg : MetaGen) (nsAnn : Mapping) (pod : Pod) : List Event :=
  (getContainersInPod pod).flatMap (containerEvents mg nsAnn pod)

/-- Model of `providerData`: the uid, the `kubernetes.*` mapping (`none` models the
Go nil map of the zero `providerData{}` value) and the processors. -/
structure ProviderData where
  uid : String
  mapping : Option Mapping
  processors : List Processor

/-- Mapping published for the pod entity, given the cloned `kubernetes.*`
tree `km`: add `namespace_annotations` when non-empty and then add the
(unsanitized) pod annotations. -/
def podK8sMapping (nsAnn : Mapping) (pod : Pod) (km : Mapping) : Mapping :=
  let k8s := if nsAnn.isEmpty then km else mput km "namespace_annotations" (.vmap nsAnn)
  mput k8s "annotations" (.vmap (podAnnotationsMap pod))

/-- Model of `generatePodData`: on a generated tree without the
`kubernetes` key the zero `providerData{}` (nil mapping) is returned;
otherwise the `kubernetes.*` clone is extended as in `podK8sMapping`,
with one `add_fields` processor per top-level generated field. -/
def generatePodData (mg : MetaGen) (nsAnn : Mapping) (pod : Pod) : ProviderData :=
  match fieldLookup (mg.genPod pod) "kubernetes" with
  | none => { uid := "", mapping := none, processors := [] }
  | some km =>
    { uid := pod.uid
      mapping := some (podK8sMapping nsAnn pod km)
      processors := (mg.genPod pod).map (fun fm => { target := fm.1, fields := fm.2 : Processor }) }

/-- Model of `emitRunning`: write `scope` into the pod mapping (a Go write into a
nil map panics, modelled by `none`), publish the pod entity at
`PodPriority`, then emit all containers. -/
def emitRunning (mg : MetaGen) (scope : String) (nsAnn : Mapping) (pod : Pod) :
    Option (List Event) :=
  let data := generatePodData mg nsAnn pod
  match data.mapping with
  | none => none
  | some m =>
    some (.addOrUpdate data.uid PodPriority (mput m "scope" (.str scope)) data.processors ::
      generateContainerData mg nsAnn pod)

/-- Model of `emitStopped`: remove the pod-scope identity, then the identity of
every spec container, then of every init container. -/
def emitStopped (pod : Pod) : List Event :=
  Event.remove pod.uid ::
    (pod.containers.map (fun c => Event.remove (pod.uid ++ "." ++ c.spec.name)) ++
     pod.initContainers.map (fun c => Event.remove (pod.uid ++ "." ++ c.spec.name)))

/-- Model of `OnDelete`: performs no removal itself; it schedules `emitStopped` once
via `time.AfterFunc(cleanupTimeout, ...)`.  The result is the list of
events emitted immediately, the timer delay, and the events the deferred
callback will emit. -/
def onDelete (cleanupTimeout : Nat) (pod : Pod) : List Event × Nat × List Event :=
  ([], cleanupTimeout, emitStopped pod)

/-- Result that one `Start()` call of a watcher would return. -/
abbrev StartResult := Except String Unit

/-- Model of `pod.Start()`: a `none` watcher was never constructed and is skipped;
a present node watcher is started first and its error aborts, then the
namespace watcher likewise, then the pod watcher.  The result records the
names of the watchers whose `Start` was invoked, and the returned error if
any. -/
def eventerStart (node ns : Option StartResult) (podw : StartResult) :
    List String × Option String :=
  match node with
  | some (.error e) => (["node"], some e)
  | _ =>
    let l1 := if node.isSome then ["node"] else []
    match ns with
    | some (.error e) => (l1 ++ ["namespace"], some e)
    | _ =>
      let l2 := l1 ++ (if ns.isSome then ["namespace"] else [])
      match podw with
      | .error e => (l2 ++ ["pod"], some e)
      | .ok _ => (l2 ++ ["pod"], none)

/-- The hints response body (`HintsResponse`): the `action` tag. -/
structure HintsResponse where
  action : String
deriving Repr, DecidableEq

/-- Model of `HintsResponse.Validate`: the only accepted action is the literal
`created`; anything else yields a `hints not created` error. -/
def HintsResponse.Validate (h : HintsResponse) : Bool :=
  h.action = "created"

/-- Content of an HTTP response body as the decoder sees it:
either bytes that decode as a `HintsResponse`, or malformed bytes on which
`decoder.Decode` fails. -/
inductive Body where
  | hints (r : HintsResponse)
  | malformed (raw : String)
deriving Repr, DecidableEq

/-- A Go error value as the hints command observes it: the matchable
`*url.Error` and `*net.OpError` shapes, the two package sentinels, the
validation errors, a structured server error extracted from a body,
a wrapping `errors.New(err, msg)`, and other plain errors. -/
inductive GoError where
  | urlError (inner : GoError)
  | netOpError (detail : String)
  | connRefused
  | tooManyRequests
  | missingHintsType
  | hintsNotCreated
  | structuredError (body : Body)
  | wrapped (msg : String) (inner : GoError)
  | simple (msg : String)
deriving Repr, DecidableEq

/-- The `ErrConnRefused` sentinel (declared outside `src/`). -/
def ErrConnRefused : GoError := .connRefused

/-- The `ErrTooManyRequests` sentinel (declared outside `src/`). -/
def ErrTooManyRequests : GoError := .tooManyRequests

/-- The pod sub-object of a `HintsRequest`. -/
structure KubePodRef where
  ip : String
  name : String
  uid : String
deriving Repr, DecidableEq

/-- The container sub-object of a `HintsRequest`. -/
structure KubeContainer where
  id : String
  image : String
  name : String
  port : String
  portName : String
  runtime : String
deriving Repr, DecidableEq

/-- The `kubernetes` sub-object of a `HintsRequest` (`namespace` is spelt
`nspace` because `namespace` is a Lean keyword). -/
structure KubeHints where
  container : KubeContainer
  nspace : String
  annotations : List (String × String)
  labels : List (String × String)
  pod : KubePodRef
deriving Repr, DecidableEq

/-- The hints request body (`HintsRequest`). -/
structure HintsRequest where
  agentId : String
  type : String
  kubernetes : KubeHints
deriving Repr, DecidableEq

/-- Model of `HintsRequest.Validate`: rejects a request whose `type` has length
zero with a `missing hints type` error. -/
def HintsRequest.Validate (h : HintsRequest) : Option GoError :=
  if h.type.length = 0 then some .missingHintsType else none

/-- Modelled from the spec: the unwrap chain walked by the internal errors
package `As` helper (the package lives outside `src/`); `*url.Error` and
`errors.New` wrappers expose their inner cause. -/
def errChain : GoError → List GoError
  | .urlError inner => GoError.urlError inner :: errChain inner
  | .wrapped msg inner => GoError.wrapped msg inner :: errChain inner
  | e => [e]

/-- Modelled from the spec: `errors.As(err, ...)` against `*url.Error` —
finds the first URL error in the chain and yields its `Err` field. -/
def asUrlError (e : GoError) : Option GoError :=
  (errChain e).findSome? fun x =>
    match x with
    | .urlError inner => some inner
    | _ => none

/-- Modelled from the spec: `errors.As(err, ...)` against `*net.OpError` —
true when the chain holds a raw network-operation error. -/
def isNetOpError (e : GoError) : Bool :=
  (errChain e).any fun x =>
    match x with
    | .netOpError _ => true
    | _ => false

/-- Modelled from the spec: `client.ExtractError` (outside `src/`) extracts
a structured error from a non-200 response body. -/
def extractError (b : Body) : GoError := .structuredError b

/-- An HTTP response as the command reads it: status code plus body. -/
structure HttpResponse where
  statusCode : Nat
  body : Body
deriving Repr, DecidableEq

/-- Result of the single `Send` call on the external sender. -/
abbrev SendResult := Except GoError HttpResponse

/-- The outcome of `Execute`: how many times the sender was invoked, and
the returned response or error. -/
structure ExecResult where
  sendCalls : Nat
  result : Except GoError HintsResponse
deriving Repr

/-- Model of `HintsCmd.Execute`: validate the request (no send on failure); on a
send error return the inner cause of a URL error, else the
connection-refused sentinel for a network-operation error, else the error
as-is; on a response branch on 429 / non-200 / 200, decode, and validate
`action == "created"`.  JSON-marshalling the request cannot fail for this
field shape, so that branch is not reachable in the model. -/
def HintsCmd.Execute (send : SendResult) (r : HintsRequest) : ExecResult :=
  match r.Validate with
  | some e => { sendCalls := 0, result := .error e }
  | none =>
    match send with
    | .error err =>
      { sendCalls := 1
        result := .error
          (match asUrlError err with
           | some inner => inner
           | none => if isNetOpError err then ErrConnRefused else err) }
    | .ok resp =>
      { sendCalls := 1
        result :=
          if resp.statusCode = 429 then .error ErrTooManyRequests
          else if resp.statusCode ≠ 200 then .error (extractError resp.body)
          else
            match resp.body with
            | .malformed raw => .error (.wrapped "fail to decode hints response" (.simple raw))
            | .hints hr =>
              if hr.Validate then .ok hr else .error GoError.hintsNotCreated }

/-- JSON unmarshal of one string field: absent keys give the zero value,
a nested object in a string field is a decode error. -/
def strField (m : Mapping) (k : String) : Except GoError String :=
  match mlookup m k with
  | none => .ok ""
  | some (.str s) => .ok s
  | some (.vmap _) => .error (.simple ("json: cannot unmarshal object into string field " ++ k))

/-- JSON unmarshal of one object field: absent keys give the empty object,
a string in an object field is a decode error. -/
def mapField (m : Mapping) (k : String) : Except GoError Mapping :=
  match mlookup m k with
  | none => .ok []
  | some (.vmap mm) => .ok mm
  | some (.str _) => .error (.simple ("json: cannot unmarshal string into object field " ++ k))

/-- JSON unmarshal of a `map[string]string`: every value must be a string. -/
def strPairs : List (String × Value) → Except GoError (List (String × String))
  | [] => .ok []
  | (k, v) :: rest =>
    match v with
    | .str s => do
      let t ← strPairs rest
      .ok ((k, s) :: t)
    | .vmap _ => .error (.simple ("json: cannot unmarshal object into string map at " ++ k))

/-- The JSON round trip inside `postMappingstoFleet`: marshal
`{kubernetes: k8sMapping}` (which cannot fail for these tree values) and
unmarshal the bytes into a `HintsRequest`, reading the container,
namespace, annotation, label and pod fields. -/
def hintsRequestOfMapping (k8sMapping : Mapping) : Except GoError HintsRequest := do
  let cm ← mapField k8sMapping "container"
  let cid ← strField cm "id"
  let cimage ← strField cm "image"
  let cname ← strField cm "name"
  let cport ← strField cm "port"
  let cportName ← strField cm "port_name"
  let cruntime ← strField cm "runtime"
  let nsp ← strField k8sMapping "namespace"
  let annm ← mapField k8sMapping "annotations"
  let anns ← strPairs annm
  let labm ← mapField k8sMapping "labels"
  let labs ← strPairs labm
  let pm ← mapField k8sMapping "pod"
  let pip ← strField pm "ip"
  let pname ← strField pm "name"
  let puid ← strField pm "uid"
  .ok { agentId := ""
        type := ""
        kubernetes :=
          { container :=
              { id := cid, image := cimage, name := cname
                port := cport, portName := cportName, runtime := cruntime }
            nspace := nsp
            annotations := anns
            labels := labs
            pod := { ip := pip, name := pname, uid := puid } } }

/-- Model of `postMappingstoFleet`: propagate an agent-info error, propagate a JSON
round-trip error, set the request type, run `Execute` — and return the
response with a `nil` error, so an `Execute` error is dropped (`resp` is
`none` in that case). -/
def postMappingstoFleet (agentInfoRes : Except GoError String) (send : SendResult)
    (k8sMapping : Mapping) (t : String) : Except GoError (Option HintsResponse) :=
  match agentInfoRes with
  | .error e => .error e
  | .ok _ =>
    match hintsRequestOfMapping k8sMapping with
    | .error e => .error e
    | .ok req0 =>
      let req := { req0 with type := t }
      let r := HintsCmd.Execute send req
      .ok r.result.toOption

/-- Whether an event is a remote dispatch. -/
def Event.isDispatch : Event → Bool
  | .dispatch _ _ => true
  | _ => false

/-- Whether an event is a registry `AddOrUpdate`. -/
def Event.isReg : Event → Bool
  | .addOrUpdate _ _ _ _ => true
  | _ => false

/-- The identities of the registry `AddOrUpdate` events, in order. -/
def registryIds (evs : List Event) : List String :=
  evs.filterMap fun e =>
    match e with
    | .addOrUpdate i _ _ _ => some i
    | _ => none

/-- The containers of a pod that have a non-empty runtime identifier. -/
def qualifyingContainers (pod : Pod) : List Container :=
  (getContainersInPod pod).filter (fun c => c.id ≠ "")

/-- Whether the annotation set of the pod contains the hint sentinel key. -/
def hasSentinelKey (pod : Pod) : Bool :=
  pod.annotations.any (fun kv => kv.1 == hintsSentinelKey)

theorem mlookup_mput (m : Mapping) (k : String) (v : Value) (k2 : String) :
    mlookup (mput m k v) k2 = if k = k2 then some v else mlookup m k2 := by
  induction m with
  | nil => simp [mput, mlookup]
  | cons p rest ih =>
    obtain ⟨k1, v1⟩ := p
    by_cases h1 : k1 = k
    · subst h1
      by_cases h2 : k1 = k2 <;> simp [mput, mlookup, h2]
    · by_cases h2 : k1 = k2
      · subst h2
        have hne : k ≠ k1 := fun h => h1 h.symm
        simp [mput, mlookup, h1, hne]
      · simp [mput, mlookup, h1, h2, ih]

theorem mlookup_mdel (m : Mapping) (k k2 : String) :
    mlookup (mdel m k) k2 = if k2 = k then none else mlookup m k2 := by
  induction m with
  | nil => simp [mdel, mlookup]
  | cons p rest ih =>
    obtain ⟨k1, v1⟩ := p
    by_cases h1 : k1 = k
    · have hm : mdel ((k1, v1) :: rest) k = mdel rest k := by
        simp [mdel, List.filter, h1]
      rw [hm, ih]
      by_cases h2 : k2 = k
      · simp [h2]
      · have hne : k1 ≠ k2 := fun h => h2 (h.symm.trans h1)
        simp [h2, mlookup, hne]
    · have hm : mdel ((k1, v1) :: rest) k = (k1, v1) :: mdel rest k := by
        simp [mdel, List.filter, h1]
      rw [hm]
      by_cases h2 : k1 = k2
      · have hk2 : ¬ k2 = k := fun h => h1 (h2.trans h)
        simp [mlookup, h2, hk2]
      · simp [mlookup, h2, ih]

theorem mlookup_annFold (l : List (String × String)) (m : Mapping) (k : String) :
    (mlookup (l.foldl (fun acc kv => mput acc kv.1 (.str kv.2)) m) k).isSome =
      ((mlookup m k).isSome || l.any (fun kv => kv.1 == k)) := by
  induction l generalizing m with
  | nil => simp
  | cons kv t ih =>
    simp only [List.foldl_cons, List.any_cons]
    rw [ih, mlookup_mput]
    by_cases h : kv.1 = k
    · simp [h]
    · have hb : (kv.1 == k) = false := by simp [h]
      simp [h, hb]

theorem checkForHints_sanitized (pod : Pod) :
    checkForHints (sanitizedAnnotations pod) = hasSentinelKey pod := by
  unfold checkForHints sanitizedAnnotations podAnnotationsMap hasSentinelKey
  rw [mlookup_mdel]
  have hne : hintsSentinelKey ≠ "kubectl" := by decide
  rw [if_neg hne, mlookup_annFold]
  simp [mlookup]

theorem containerEvents_empty_id (mg : MetaGen) (nsAnn : Mapping) (pod : Pod) (c : Container)
    (hid : c.id = "") : containerEvents mg nsAnn pod c = [] := by
  simp [containerEvents, hid]

theorem containerEvents_hints (mg : MetaGen) (nsAnn : Mapping) (pod : Pod) (c : Container)
    (km : Mapping) (hid : ¬ c.id = "") (hkm : kubernetesTreeOf mg pod c = some km)
    (hch : checkForHints (sanitizedAnnotations pod) = true) :
    containerEvents mg nsAnn pod c =
      [.dispatch (containerK8sMapping nsAnn pod c km) "Start"] := by
  simp [containerEvents, hid, hkm, hch]

theorem containerEvents_registry (mg : MetaGen) (nsAnn : Mapping) (pod : Pod) (c : Container)
    (km : Mapping) (hid : ¬ c.id = "") (hkm : kubernetesTreeOf mg pod c = some km)
    (hch : checkForHints (sanitizedAnnotations pod) = false) :
    containerEvents mg nsAnn pod c =
      [.addOrUpdate (pod.uid ++ "." ++ c.spec.name) ContainerPriority
        (containerK8sMapping nsAnn pod c km) (containerProcessors mg pod c)] := by
  simp [containerEvents, hid, hkm, hch]

theorem hint_events_over (mg : MetaGen) (nsAnn : Mapping) (pod : Pod) (L : List Container)
    (h : ∀ c ∈ L, (kubernetesTreeOf mg pod c).isSome = true) :
    (checkForHints (sanitizedAnnotations pod) = true →
       (∀ e ∈ L.flatMap (containerEvents mg nsAnn pod), e.isDispatch = true) ∧
       (L.flatMap (containerEvents mg nsAnn pod)).length =
         (L.filter (fun c => c.id ≠ "")).length) ∧
    (checkForHints (sanitizedAnnotations pod) = false →
       (∀ e ∈ L.flatMap (containerEvents mg nsAnn pod), e.isReg = true) ∧
       registryIds (L.flatMap (containerEvents mg nsAnn pod)) =
         (L.filter (fun c => c.id ≠ "")).map (fun c => pod.uid ++ "." ++ c.spec.name)) := by
  induction L with
  | nil => simp [registryIds]
  | cons c t ih =>
    have hc := h c (List.mem_cons_self c t)
    have ht := ih (fun x hx => h x (List.mem_cons_of_mem c hx))
    obtain ⟨km, hkm⟩ := Option.isSome_iff_exists.mp hc
    by_cases hid : c.id = ""
    · have hce := containerEvents_empty_id mg nsAnn pod c hid
      constructor
      · intro hch
        refine ⟨fun e he => (ht.1 hch).1 e ?_, ?_⟩
        · simpa [hce] using he
        · simp [hce, hid, (ht.1 hch).2]
      · intro hch
        refine ⟨fun e he => (ht.2 hch).1 e ?_, ?_⟩
        · simpa [hce] using he
        · simp [registryIds, hce, hid]
          simpa [registryIds] using (ht.2 hch).2
    · constructor
      · intro hch
        have hce := containerEvents_hints mg nsAnn pod c km hid hkm hch
        refine ⟨fun e he => ?_, ?_⟩
        · rw [List.flatMap_cons, hce] at he
          rcases List.mem_append.mp he with h1 | h2
          · rcases List.mem_singleton.mp h1 with rfl
            rfl
          · exact (ht.1 hch).1 e h2
        · rw [List.flatMap_cons, hce]
          simp [hid, (ht.1 hch).2]
      · intro hch
        have hce := containerEvents_registry mg nsAnn pod c km hid hkm hch
        refine ⟨fun e he => ?_, ?_⟩
        · rw [List.flatMap_cons, hce] at he
          rcases List.mem_append.mp he with h1 | h2
          · rcases List.mem_singleton.mp h1 with rfl
            rfl
          · exact (ht.2 hch).1 e h2
        · rw [List.flatMap_cons, hce]
          simp only [registryIds, List.filterMap_append]
          simp [hid]
          simpa [registryIds] using (ht.2 hch).2

/-- C1: a container path is dispatched to the remote hints transport
instead of the local registry if and only if the annotation set of the pod
contains the sentinel key `elastic-co-hints/package`; the decision is
uniform across every container of the pod, and for a pod without the
sentinel every qualifying container (non-empty runtime id, metadata
generated) yields exactly one registry `AddOrUpdate` whose identity is the
pod UID, a dot, and the container spec name. -/
theorem hint_gate_policy (mg : MetaGen) (nsAnn : Mapping) (pod : Pod)
    (hgen : ∀ c ∈ getContainersInPod pod, (kubernetesTreeOf mg pod c).isSome = true) :
    (hasSentinelKey pod = true →
       (∀ e ∈ generateContainerData mg nsAnn pod, e.isDispatch = true) ∧
       (generateContainerData mg nsAnn pod).length = (qualifyingContainers pod).length) ∧
    (hasSentinelKey pod = false →
       (∀ e ∈ generateContainerData mg nsAnn pod, e.isReg = true) ∧
       registryIds (generateContainerData mg nsAnn pod) =
         (qualifyingContainers pod).map (fun c => pod.uid ++ "." ++ c.spec.name)) := by
  have h := hint_events_over mg nsAnn pod (getContainersInPod pod) hgen
  rw [checkForHints_sanitized] at h
  exact h

/-- Metadata generator used by the concrete witnesses: every pod and
container generates a `kubernetes` tree. -/
def mgGood : MetaGen :=
  { genPod := fun _ => [("kubernetes", [("namespace", .str "default")])]
    genContainer := fun _ cname =>
      [("kubernetes", [("namespace", .str "default"), ("cname", .str cname)])] }

/-- Pod used by the witnesses: UID `abc`, one regular container `app` and
one init container `init1`, both running, no hint sentinel annotation. -/
def podNoHints : Pod :=
  { uid := "abc", name := "p1", annotations := [("owner", "team-a")]
    containers :=
      [{ spec := { name := "app", image := "nginx", ports := [] }
         id := "cid-app", runtime := "containerd" }]
    initContainers :=
      [{ spec := { name := "init1", image := "busybox", ports := [] }
         id := "cid-init", runtime := "containerd" }] }

theorem hint_gate_policy_witness :
    hasSentinelKey podNoHints = false ∧
    registryIds (generateContainerData mgGood [] podNoHints) = ["abc.app", "abc.init1"] := by
  have h := (hint_gate_policy mgGood [] podNoHints (by decide)).2 (by decide)
  exact ⟨by decide, h.2.trans (by decide)⟩

/-- C2 counterexample: at a concrete pod-delete event the handler emits no
immediate removal at all — in particular the pod-scope identity `abc` is
not removed immediately, contradicting the claim that removal happens
immediately and then again after the grace period. -/
theorem onDelete_no_immediate_removal_cex :
    (onDelete 60 podNoHints).1 = [] ∧
    Event.remove "abc" ∉ (onDelete 60 podNoHints).1 := by
  refine ⟨rfl, ?_⟩
  simp [onDelete]

/-- C2 amended: for every pod-delete event the handler removes nothing
immediately; it schedules exactly one deferred removal, after the cleanup
grace period, of the pod-scope identity and every container-scope identity
computed from the spec containers and the init containers. -/
theorem onDelete_single_deferred_removal (t : Nat) (pod : Pod) :
    onDelete t pod =
      ([], t,
        Event.remove pod.uid ::
          (pod.containers ++ pod.initContainers).map
            (fun c => Event.remove (pod.uid ++ "." ++ c.spec.name))) := by
  simp [onDelete, emitStopped]

/-- Metadata generator whose pod-level tree lacks the `kubernetes` key. -/
def mgNoKube : MetaGen :=
  { genPod := fun _ => [("orchestrator", [("cluster", .str "c1")])]
    genContainer := fun _ _ => [("kubernetes", [("namespace", .str "default")])] }

/-- Metadata generator that fails (no `kubernetes` key) exactly for the
container named `bad`. -/
def mgPartial : MetaGen :=
  { genPod := fun _ => [("kubernetes", [("namespace", .str "default")])]
    genContainer := fun _ cname =>
      if cname = "bad" then [("orchestrator", [("cluster", .str "c1")])]
      else [("kubernetes", [("namespace", .str "default")])] }

/-- Pod with two running containers named `bad` and `good`. -/
def podTwo : Pod :=
  { uid := "abc", name := "p2", annotations := []
    containers :=
      [{ spec := { name := "bad", image := "i1", ports := [] }
         id := "cid-1", runtime := "containerd" },
       { spec := { name := "good", image := "i2", ports := [] }
         id := "cid-2", runtime := "containerd" }]
    initContainers := [] }

/-- C3 evidence: when pod-scope metadata generation yields no `kubernetes`
key, `generatePodData` returns the zero value with a nil mapping and the
caller `emitRunning` then writes `scope` into that nil map — a Go runtime
panic, modelled as `none` — instead of skipping the pod.  Container-scope
failure, by contrast, is skipped and the sibling containers continue. -/
theorem metadata_failure_pod_panics :
    emitRunning mgNoKube "node" [] podNoHints = none ∧
    registryIds (generateContainerData mgPartial [] podTwo) = ["abc.good"] := by
  exact ⟨rfl, by decide⟩

/-- C4 counterexample: an eventer whose node watcher exists but fails to
start aborts `Start` with that error — the pod watcher is never started —
contradicting the claim that only a pod-watcher failure is propagated. -/
theorem start_node_failure_aborts_cex :
    eventerStart (some (.error "node watcher start failed")) none (.ok ()) =
      (["node"], some "node watcher start failed") := rfl

/-- Error component of a start result. -/
def errOf : StartResult → Option String
  | .ok _ => none
  | .error e => some e

/-- C4 amended: watchers that were never constructed are silently skipped,
but a failure to start any present watcher — node, namespace, or pod — is
returned by `Start` and aborts the remaining starts. -/
theorem start_error_propagation :
    (∀ pw : StartResult, eventerStart none none pw = (["pod"], errOf pw)) ∧
    (∀ (e : String) (ns : Option StartResult) (pw : StartResult),
       eventerStart (some (.error e)) ns pw = (["node"], some e)) ∧
    (∀ (e : String) (pw : StartResult),
       eventerStart none (some (.error e)) pw = (["namespace"], some e)) ∧
    (∀ (e : String) (pw : StartResult),
       eventerStart (some (.ok ())) (some (.error e)) pw = (["node", "namespace"], some e)) ∧
    (∀ pw : StartResult,
       eventerStart (some (.ok ())) (some (.ok ())) pw =
         (["node", "namespace", "pod"], errOf pw)) := by
  refine ⟨fun pw => ?_, fun e ns pw => rfl, fun e pw => rfl, fun e pw => rfl, fun pw => ?_⟩
  · cases pw <;> rfl
  · cases pw <;> rfl

/-- Mapping emitted for the `app` container of `podNoHints`, as the
remote-dispatch path would hand it to `postMappingstoFleet`. -/
def mapC5 : Mapping :=
  [("namespace", .str "default"),
   ("container", .vmap [("id", .str "cid-app"), ("name", .str "app"),
                        ("image", .str "nginx"), ("runtime", .str "containerd")]),
   ("annotations", .vmap [("owner", .str "team-a")])]

/-- Send outcome where the socket connection is refused. -/
def sendRefused : SendResult :=
  .error (.netOpError "dial tcp 127.0.0.1:8220: connect: connection refused")

/-- Request that the JSON round trip builds from `mapC5` with type
`Start`. -/
def reqC5 : HintsRequest :=
  { agentId := "", type := "Start"
    kubernetes :=
      { container := { id := "cid-app", image := "nginx", name := "app"
                       port := "", portName := "", runtime := "containerd" }
        nspace := "default"
        annotations := [("owner", "team-a")]
        labels := []
        pod := { ip := "", name := "", uid := "" } } }

/-- C5 evidence: the round trip builds `reqC5`, executing the command on a
refused connection fails with the connection-refused sentinel, yet
`postMappingstoFleet` returns a nil error (and a nil response) to the
per-container emit loop — the `Execute` error is discarded in the helper
instead of propagating. -/
theorem postMappings_drops_execute_error :
    hintsRequestOfMapping mapC5 = .ok { reqC5 with type := "" } ∧
    (HintsCmd.Execute sendRefused reqC5).result = .error ErrConnRefused ∧
    postMappingstoFleet (.ok "agent-1") sendRefused mapC5 "Start" = .ok none := by
  refine ⟨?_, ?_, ?_⟩ <;> rfl

/-- C6: classification of send errors in `Execute` — a URL error returns
its unwrapped inner cause; otherwise a raw network-operation error returns
the connection-refused sentinel regardless of the underlying detail; any
other send error is returned as-is. -/
theorem send_error_classification (r : HintsRequest) (err : GoError)
    (hv : r.Validate = none) :
    (∀ inner, asUrlError err = some inner →
       (HintsCmd.Execute (.error err) r).result = .error inner) ∧
    (asUrlError err = none → isNetOpError err = true →
       (HintsCmd.Execute (.error err) r).result = .error ErrConnRefused) ∧
    (asUrlError err = none → isNetOpError err = false →
       (HintsCmd.Execute (.error err) r).result = .error err) := by
  refine ⟨fun inner hi => ?_, fun hu hn => ?_, fun hu hn => ?_⟩ <;>
    simp [HintsCmd.Execute, hv, *]

theorem send_error_classification_witness :
    (HintsCmd.Execute sendRefused reqC5).result = .error ErrConnRefused :=
  (send_error_classification reqC5
    (.netOpError "dial tcp 127.0.0.1:8220: connect: connection refused") rfl).2.1 rfl rfl

/-- C7: on a successful round trip a 429 yields the rate-limited sentinel,
any other non-200 yields the structured error extracted from the body, and
a 200 decoded as a `HintsResponse` is accepted exactly when the action is
the literal `created` — any other action value is a validation error. -/
theorem response_status_classification (r : HintsRequest) (resp : HttpResponse)
    (hv : r.Validate = none) :
    (resp.statusCode = 429 →
       (HintsCmd.Execute (.ok resp) r).result = .error ErrTooManyRequests) ∧
    (resp.statusCode ≠ 429 → resp.statusCode ≠ 200 →
       (HintsCmd.Execute (.ok resp) r).result = .error (extractError resp.body)) ∧
    (∀ hr, resp.statusCode = 200 → resp.body = .hints hr →
       ((HintsCmd.Execute (.ok resp) r).result = .ok hr ↔ hr.action = "created")) ∧
    (∀ hr, resp.statusCode = 200 → resp.body = .hints hr → hr.action ≠ "created" →
       (HintsCmd.Execute (.ok resp) r).result = .error GoError.hintsNotCreated) := by
  refine ⟨fun h429 => ?_, fun h429 h200 => ?_, fun hr h200 hbody => ?_,
    fun hr h200 hbody hact => ?_⟩
  · simp [HintsCmd.Execute, hv, h429]
  · simp [HintsCmd.Execute, hv, h429, h200]
  · by_cases hact : hr.action = "created" <;>
      simp [HintsCmd.Execute, hv, h200, hbody, HintsResponse.Validate, hact]
  · simp [HintsCmd.Execute, hv, h200, hbody, HintsResponse.Validate, hact]

theorem response_status_classification_witness :
    (HintsCmd.Execute (.ok { statusCode := 200, body := .hints { action := "created" } })
        reqC5).result = .ok { action := "created" } :=
  ((response_status_classification reqC5
      { statusCode := 200, body := .hints { action := "created" } } rfl).2.2.1
    { action := "created" } rfl rfl).mpr rfl

/-- C8: a request whose type is empty is rejected by validation before the
sender is ever invoked (zero send calls); a non-empty type passes
validation and the sender is invoked. -/
theorem empty_type_rejected_before_send (send : SendResult) (r : HintsRequest) :
    (r.type = "" →
       HintsCmd.Execute send r =
         { sendCalls := 0, result := .error GoError.missingHintsType }) ∧
    (r.type ≠ "" → r.Validate = none ∧ (HintsCmd.Execute send r).sendCalls = 1) := by
  constructor
  · intro h
    have hv : r.Validate = some GoError.missingHintsType := by
      simp [HintsRequest.Validate, h]
    simp [HintsCmd.Execute, hv]
  · intro h
    have hlen : r.type.length ≠ 0 := by
      intro h0
      exact h (String.ext (List.length_eq_zero.mp h0))
    have hv : r.Validate = none := by
      simp [HintsRequest.Validate, hlen]
    refine ⟨hv, ?_⟩
    cases send <;> simp [HintsCmd.Execute, hv]

/-- Empty kubernetes payload used by the C8 witness. -/
def emptyKube : KubeHints :=
  { container := { id := "", image := "", name := "", port := "", portName := "", runtime := "" }
    nspace := "", annotations := [], labels := [], pod := { ip := "", name := "", uid := "" } }

theorem empty_type_rejected_before_send_witness :
    HintsCmd.Execute (.ok { statusCode := 200, body := .hints { action := "created" } })
        { agentId := "a1", type := "", kubernetes := emptyKube } =
      { sendCalls := 0, result := .error GoError.missingHintsType } :=
  (empty_type_rejected_before_send
    (.ok { statusCode := 200, body := .hints { action := "created" } })
    { agentId := "a1", type := "", kubernetes := emptyKube }).1 rfl

/-- C9: a container whose runtime identifier is empty is skipped entirely
by the emit loop — it contributes no registry update and no remote
dispatch — and the events of a pod are exactly the per-container events of
the loop. -/
theorem empty_id_container_skipped (mg : MetaGen) (nsAnn : Mapping) (pod : Pod) (c : Container)
    (hc : c.id = "") :
    containerEvents mg nsAnn pod c = [] ∧
    generateContainerData mg nsAnn pod =
      (getContainersInPod pod).flatMap (containerEvents mg nsAnn pod) :=
  ⟨containerEvents_empty_id mg nsAnn pod c hc, rfl⟩

/-- Container that is not running yet (no runtime identifier). -/
def cNotRunning : Container :=
  { spec := { name := "pending", image := "nginx", ports := [] }, id := "", runtime := "" }

theorem empty_id_container_skipped_witness :
    containerEvents mgGood [] podNoHints cNotRunning = [] :=
  (empty_id_container_skipped mgGood [] podNoHints cNotRunning rfl).1

/-- Mapping carried by an emitted event. -/
def eventMapping : Event → Mapping
  | .addOrUpdate _ _ m _ => m
  | .dispatch m _ => m
  | .remove _ => []

/-- C10: the `kubernetes.container` sub-map published for a container (to
the registry or dispatched remotely) holds the port number and port name
of the last declared port only — each loop iteration overwrites the
previous one — and a container with no declared ports carries no port
fields. -/
theorem last_port_wins (mg : MetaGen) (nsAnn : Mapping) (pod : Pod) (c : Container) :
    (c.spec.ports = [] →
       mlookup (containerMetaFor c) "port" = none ∧
       mlookup (containerMetaFor c) "port_name" = none) ∧
    (∀ (ps : List Port) (p : Port), c.spec.ports = ps ++ [p] →
       mlookup (containerMetaFor c) "port" = some (.str (toString p.containerPort)) ∧
       mlookup (containerMetaFor c) "port_name" = some (.str p.name)) ∧
    (∀ e ∈ containerEvents mg nsAnn pod c,
       mlookup (eventMapping e) "container" = some (.vmap (containerMetaFor c))) := by
  refine ⟨fun hp => ?_, fun ps p hp => ?_, fun e he => ?_⟩
  · simp [containerMetaFor, hp, mlookup]
  · constructor <;>
      simp [containerMetaFor, hp, List.foldl_append, mlookup_mput]
  · by_cases hid : c.id = ""
    · simp [containerEvents_empty_id mg nsAnn pod c hid] at he
    · cases hkm : kubernetesTreeOf mg pod c with
      | none => simp [containerEvents, hid, hkm] at he
      | some km =>
        cases hch : checkForHints (sanitizedAnnotations pod) with
        | true =>
          rw [containerEvents_hints mg nsAnn pod c km hid hkm hch] at he
          rcases List.mem_singleton.mp he with rfl
          simp [eventMapping, containerK8sMapping, mlookup_mput]
        | false =>
          rw [containerEvents_registry mg nsAnn pod c km hid hkm hch] at he
          rcases List.mem_singleton.mp he with rfl
          simp [eventMapping, containerK8sMapping, mlookup_mput]

/-- Container with two declared ports, used by the C10 witness. -/
def cTwoPorts : Container :=
  { spec := { name := "web", image := "nginx"
              ports := [{ containerPort := 8080, name := "http" },
                        { containerPort := 9090, name := "metrics" }] }
    id := "cid-web", runtime := "containerd" }

theorem last_port_wins_witness :
    [{ containerPort := 8080, name := "http" },
     { containerPort := 9090, name := "metrics" }] ≠ ([] : List Port) ∧
    mlookup (containerMetaFor cTwoPorts) "port" = some (.str "9090") ∧
    mlookup (containerMetaFor cTwoPorts) "port_name" = some (.str "metrics") := by
  have h := (last_port_wins mgGood [] podNoHints cTwoPorts).2.1
    [{ containerPort := 8080, name := "http" }]
    { containerPort := 9090, name := "metrics" } rfl
  exact ⟨by simp, h.1, h.2⟩
